import Mathlib

/-!
Verification of `helper_funcs.py` from the craigslist-car-sales data-engineering
case study. The pure computational content of the module is embedded shallowly:

* `strip_strings_and_replace_empty_strings_with_none` and
  `extract_cylinders_int_value_from_cylinders_str` become pure Lean functions;
* the per-line body of `create_csv_records_iterator_from_zip_file` becomes
  `csv_line_to_record_dict`, with Python `dict` modelled as an insertion-ordered
  association list with Python's insert-or-replace semantics, and the generator
  modelled as the list of rows yielded before it finishes or raises;
* `migrate_craigslist_records_csv_from_zip_to_db` becomes a recursion over the
  record stream, with the Batch Inserter modelled as recording the list passed
  to each insert call and the per-row ValidationError log modelled as a list of
  skipped rows.  The Record Validator itself lives in `models.py`, which is not
  part of the source tree, so it is abstracted as a parameter.
-/

namespace CraigslistMigration

/-- Characters removed by Python `str.strip()` with no argument (ASCII whitespace;
Python additionally strips some Unicode spaces, which never occur in this
development). -/
def pyIsSpace (c : Char) : Bool :=
  c == ' ' || c == '\t' || c == '\n' || c == '\r' || c == '\x0b' || c == '\x0c'

/-- Leading-whitespace removal on the character list. -/
def lstripCL (l : List Char) : List Char := l.dropWhile pyIsSpace

/-- Trailing-whitespace removal on the character list. -/
def rstripCL (l : List Char) : List Char := (l.reverse.dropWhile pyIsSpace).reverse

/-- Python `str.strip()` on the character list: drop leading then trailing
whitespace. -/
def pyStripAux (l : List Char) : List Char := rstripCL (lstripCL l)

/-- Python `str.strip()`. -/
def pyStrip (s : String) : String := String.mk (pyStripAux s.data)

/-- `strip_strings_and_replace_empty_strings_with_none` (helper_funcs.py lines
16-18): strip the string, then return `None` if the result is empty and the
stripped string otherwise.  `none` models Python `None`, the absent marker. -/
def strip_strings_and_replace_empty_strings_with_none (input_str : String) :
    Option String :=
  let stripped := pyStrip input_str
  if stripped = "" then none else some stripped

/-- The decimal value Python `int()` assigns to a run of digit characters. -/
def digitRunToNat (ds : List Char) : Nat :=
  ds.foldl (fun acc c => acc * 10 + (c.toNat - 48)) 0

/-- `extract_cylinders_int_value_from_cylinders_str` (lines 21-29): returns `None`
on `None`; otherwise `re.match(r"(\d+)", s)` anchors at position 0, so it succeeds
exactly when the first character is a decimal digit, and group 1 is then the
maximal leading digit run, converted by `int()`. -/
def extract_cylinders_int_value_from_cylinders_str (cylinders_str : Option String) :
    Option Nat :=
  match cylinders_str with
  | none => none
  | some s =>
    let digits := s.data.takeWhile Char.isDigit
    if digits.isEmpty then none else some (digitRunToNat digits)

/-- A value stored in a yielded record dict: every normalized cell is a string,
except the `cylinders` cell, which line 57 overwrites with an extracted integer.
The surrounding `Option` is Python `None`, the absent marker. -/
inductive Cell where
  | str (s : String)
  | int (n : Nat)
deriving DecidableEq

/-- A record dict as yielded by the reader: an insertion-ordered mapping from
header name to value, as built by Python `dict(zip(csv_headers, line))`.  A key
can be missing altogether, which is distinct from a key stored with the absent
marker. -/
abbrev RecordDict : Type := List (String × Option Cell)

/-- One Python dict insertion `d[k] = v` on an insertion-ordered association
list: replace the stored value in place when the key is present, else append. -/
def dictInsert {α : Type} (d : List (String × α)) (k : String) (v : α) :
    List (String × α) :=
  if d.any (fun p => p.fst == k) then
    d.map (fun p => if p.fst == k then (p.fst, v) else p)
  else
    d ++ [(k, v)]

/-- Python `dict(pairs)`: repeated insertion starting from the empty dict. -/
def dictOfPairs {α : Type} (pairs : List (String × α)) : List (String × α) :=
  pairs.foldl (fun d p => dictInsert d p.fst p.snd) []

/-- The one Python exception the reader can raise per row: the `KeyError` from
`line_record_dict["cylinders"]` (line 60) when the key is not present. -/
inductive PyErr where
  | keyError
deriving DecidableEq

instance {ε α : Type} [DecidableEq ε] [DecidableEq α] : DecidableEq (Except ε α) :=
  fun a b =>
  match a, b with
  | Except.error e, Except.error f => decidable_of_iff (e = f) (by simp)
  | Except.ok x, Except.ok y => decidable_of_iff (x = y) (by simp)
  | Except.error _, Except.ok _ => Decidable.isFalse (by simp)
  | Except.ok _, Except.error _ => Decidable.isFalse (by simp)

/-- Body of the `for line in csv_reader` loop (lines 54-62): normalize every
cell, zip positionally against the headers into a dict (`zip` stops at the
shorter side; duplicate headers keep the last value), then read the `cylinders`
entry — raising `KeyError` when it is missing — and overwrite it with the
extracted integer before yielding. -/
def csv_line_to_record_dict (csv_headers : List String) (line : List String) :
    Except PyErr RecordDict :=
  let d := dictOfPairs (csv_headers.zip
    (line.map strip_strings_and_replace_empty_strings_with_none))
  match d.lookup "cylinders" with
  | none => Except.error PyErr.keyError
  | some v =>
    Except.ok (d.map (fun p =>
      if p.fst == "cylinders" then
        (p.fst, Option.map Cell.int (extract_cylinders_int_value_from_cylinders_str v))
      else
        (p.fst, Option.map Cell.str p.snd)))

/-- The stream the generator produces from the data rows: the record dicts
yielded before it either finishes normally (`none`) or raises (`some e`). -/
def recordsFromLines (csv_headers : List String) :
    List (List String) → List RecordDict × Option PyErr
  | [] => ([], none)
  | line :: rest =>
    match csv_line_to_record_dict csv_headers line with
    | Except.error e => ([], some e)
    | Except.ok r =>
      let tail := recordsFromLines csv_headers rest
      (r :: tail.fst, tail.snd)

/-- `create_csv_records_iterator_from_zip_file` (lines 32-62), with the
zip/file/UTF-8 layer abstracted: the CSV content is given as its already-split
lines, the first being the header row consumed by `csv_headers =
next(csv_reader)`.  `none` models the file having no header row at all. -/
def create_csv_records_iterator_from_zip_file (csvLines : List (List String)) :
    Option (List RecordDict × Option PyErr) :=
  match csvLines with
  | [] => none
  | csv_headers :: rest => some (recordsFromLines csv_headers rest)

/-- Observable outcome of one migration run: the argument of every
`insert_batch_of_craigslist_vehicle_records` call in order, the two counters
printed at lines 146-147, and the rows printed on ValidationError (line 123). -/
structure MigrateResult (α β : Type) where
  batches : List (List β)
  total_rows_parsed : Nat
  total_rows_inserted : Nat
  skipped_rows : List α
deriving DecidableEq

/-- Python truthiness of line 133, `if max_rows_to_parse and total_rows_parsed >=
max_rows_to_parse`: `None` and `0` are falsy, so the limit only fires when it is
a nonzero number that has been reached. -/
def limitReached (max_rows_to_parse : Option Nat) (total_rows_parsed : Nat) : Bool :=
  match max_rows_to_parse with
  | none => false
  | some m => decide (m ≠ 0) && decide (m ≤ total_rows_parsed)

/-- The `while True` loop of `migrate_craigslist_records_csv_from_zip_to_db`
(lines 109-148) together with the final partial-batch flush.  A step of the
source loop either reads one record (when `rows_count_in_current_batch <
batch_size`) or flushes the full batch without reading; after a non-breaking
flush the counter is reset to 0, so for any positive `batch_size` the very next
step is a read, which this definition inlines into the flush step so that every
recursive call consumes one record.  (For `batch_size = 0` the source loop would
flush forever without reading; the theorems below therefore assume a positive
capacity whenever they quantify over it.)  On the limit-triggered break (line
134) `current_batch` is deliberately NOT cleared — the clearing at lines 135-136
is skipped — so the final flush at lines 139-145 inserts the same batch again,
exactly as the source does.  Exhaustion of the records corresponds to
`StopIteration` breaking out of the loop. -/
def migrateLoop {α β : Type} (validate : α → Option β) (batch_size : Nat)
    (max_rows_to_parse : Option Nat) :
    List α → Nat → Nat → Nat → List β → List (List β) → List α → MigrateResult α β
  | records, count, parsed, inserted, batch, batches, skipped =>
    if count < batch_size then
      match records with
      | [] =>
        if batch.isEmpty then
          ⟨batches, parsed, inserted, skipped⟩
        else
          ⟨batches ++ [batch], parsed, inserted + count, skipped⟩
      | r :: rest =>
        match validate r with
        | none =>
          migrateLoop validate batch_size max_rows_to_parse rest
            count parsed inserted batch batches (skipped ++ [r])
        | some b =>
          migrateLoop validate batch_size max_rows_to_parse rest
            (count + 1) (parsed + 1) inserted (batch ++ [b]) batches skipped
    else
      if limitReached max_rows_to_parse parsed then
        if batch.isEmpty then
          ⟨batches ++ [batch], parsed, inserted + count, skipped⟩
        else
          ⟨(batches ++ [batch]) ++ [batch], parsed, inserted + count + count, skipped⟩
      else
        match records with
        | [] => ⟨batches ++ [batch], parsed, inserted + count, skipped⟩
        | r :: rest =>
          match validate r with
          | none =>
            migrateLoop validate batch_size max_rows_to_parse rest
              0 parsed (inserted + count) [] (batches ++ [batch]) (skipped ++ [r])
          | some b =>
            migrateLoop validate batch_size max_rows_to_parse rest
              1 (parsed + 1) (inserted + count) [b] (batches ++ [batch]) skipped

/-- `migrate_craigslist_records_csv_from_zip_to_db` (lines 92-148).  Modelled
from the spec where the source leaves the repository: the Record Validator
(`validate_craigslist_vehicle_record_dict` relies on the pydantic models of
`models.py`, which is not in the source tree) is abstracted as a parameter
`validate`, returning `none` exactly when validation raises ValidationError; the
record stream is the list `records`; the Batch Inserter (a database write)
records the list passed to each insert call, every insert succeeding. -/
def migrate_craigslist_records_csv_from_zip_to_db {α β : Type}
    (validate : α → Option β) (records : List α)
    (batch_size : Nat) (max_rows_to_parse : Option Nat) : MigrateResult α β :=
  migrateLoop validate batch_size max_rows_to_parse records 0 0 0 [] [] []

/-- C7: for a CSV with header row `[a, b, cylinders]` and the single data row
`[" x ", "", "6 cylinders"]`, the reader yields exactly one Normalized Row,
the mapping `{a: "x", b: absent, cylinders: 6}`, and finishes without error. -/
theorem c7_reader_normalizes_example_row :
    create_csv_records_iterator_from_zip_file
      [["a", "b", "cylinders"], [" x ", "", "6 cylinders"]] =
    some ([[("a", some (Cell.str "x")), ("b", none),
            ("cylinders", some (Cell.int 6))]], none) := by
  decide

/-- C4: with batch capacity 2 and an input of exactly 5 rows that all validate
successfully, the Driver performs exactly 3 insert calls whose batch sizes are
[2, 2, 1] in that order, the final inserted count is 5, the parsed count is 5,
and the batches' concatenation is the validated input in order. -/
theorem c4_capacity_two_five_valid_rows {α β : Type} (validate : α → Option β)
    (records : List α) (h5 : records.length = 5)
    (hv : ∀ r ∈ records, (validate r).isSome) :
    (migrate_craigslist_records_csv_from_zip_to_db validate records 2
        none).batches.map List.length = [2, 2, 1] ∧
    (migrate_craigslist_records_csv_from_zip_to_db validate records 2
        none).total_rows_inserted = 5 ∧
    (migrate_craigslist_records_csv_from_zip_to_db validate records 2
        none).total_rows_parsed = 5 ∧
    (migrate_craigslist_records_csv_from_zip_to_db validate records 2
        none).batches.flatten = records.filterMap validate := by
  obtain ⟨r1, t1, rfl⟩ := List.exists_of_length_succ records h5
  simp only [List.length_cons] at h5
  obtain ⟨r2, t2, rfl⟩ := List.exists_of_length_succ t1 (show t1.length = 3 + 1 by omega)
  simp only [List.length_cons] at h5
  obtain ⟨r3, t3, rfl⟩ := List.exists_of_length_succ t2 (show t2.length = 2 + 1 by omega)
  simp only [List.length_cons] at h5
  obtain ⟨r4, t4, rfl⟩ := List.exists_of_length_succ t3 (show t3.length = 1 + 1 by omega)
  simp only [List.length_cons] at h5
  obtain ⟨r5, t5, rfl⟩ := List.exists_of_length_succ t4 (show t4.length = 0 + 1 by omega)
  simp only [List.length_cons] at h5
  obtain rfl := List.length_eq_zero.mp (show t5.length = 0 by omega)
  obtain ⟨b1, hb1⟩ := Option.isSome_iff_exists.mp (hv r1 (by simp))
  obtain ⟨b2, hb2⟩ := Option.isSome_iff_exists.mp (hv r2 (by simp))
  obtain ⟨b3, hb3⟩ := Option.isSome_iff_exists.mp (hv r3 (by simp))
  obtain ⟨b4, hb4⟩ := Option.isSome_iff_exists.mp (hv r4 (by simp))
  obtain ⟨b5, hb5⟩ := Option.isSome_iff_exists.mp (hv r5 (by simp))
  simp [migrate_craigslist_records_csv_from_zip_to_db, migrateLoop, limitReached,
    hb1, hb2, hb3, hb4, hb5, List.filterMap_cons]

/-- C4 witness: the concrete all-valid instance `[1, 2, 3, 4, 5]` with batch
capacity 2. -/
theorem c4_capacity_two_five_valid_rows_witness :
    (migrate_craigslist_records_csv_from_zip_to_db (fun n : Nat => some n)
        [1, 2, 3, 4, 5] 2 none).batches.map List.length = [2, 2, 1] ∧
    (migrate_craigslist_records_csv_from_zip_to_db (fun n : Nat => some n)
        [1, 2, 3, 4, 5] 2 none).total_rows_inserted = 5 ∧
    (migrate_craigslist_records_csv_from_zip_to_db (fun n : Nat => some n)
        [1, 2, 3, 4, 5] 2 none).total_rows_parsed = 5 ∧
    (migrate_craigslist_records_csv_from_zip_to_db (fun n : Nat => some n)
        [1, 2, 3, 4, 5] 2 none).batches.flatten =
      [1, 2, 3, 4, 5].filterMap (fun n : Nat => some n) :=
  c4_capacity_two_five_valid_rows (fun n : Nat => some n) [1, 2, 3, 4, 5]
    (by decide) (by decide)

/-- C1 counterexample: with `max_rows_to_parse = 3`, batch capacity 10, and an
all-valid input of 4 rows, the Driver does NOT stop after parsing 3 rows: the
limit is only checked after a full-batch flush and no batch of 10 ever fills, so
all 4 rows are parsed and the single flush has size 4 > 3. -/
theorem c1_counterexample :
    migrate_craigslist_records_csv_from_zip_to_db (fun n : Nat => some n)
        [1, 2, 3, 4] 10 (some 3) = ⟨[[1, 2, 3, 4]], 4, 4, []⟩ ∧
    ¬ ((migrate_craigslist_records_csv_from_zip_to_db (fun n : Nat => some n)
          [1, 2, 3, 4] 10 (some 3)).total_rows_parsed = 3 ∧
        ∀ b ∈ (migrate_craigslist_records_csv_from_zip_to_db (fun n : Nat => some n)
          [1, 2, 3, 4] 10 (some 3)).batches, b.length ≤ 3) := by
  decide

/-- C2 evaluated at the failing input (the claim is right, the code is wrong):
batch capacity 2, `max_rows_to_parse = 2`, two valid rows.  The full batch
[r1, r2] is inserted; the limit check at line 133 then breaks out of the loop
BEFORE the clearing at lines 135-136 runs, so `current_batch` still holds the
just-inserted records and the final partial-batch flush (lines 139-145) passes
the very same batch to the Batch Inserter a second time: two insert calls of the
same two records, and `total_rows_inserted = 4` for only 2 parsed rows. -/
theorem c2_double_insert_at_failing_input :
    migrate_craigslist_records_csv_from_zip_to_db (fun n : Nat => some n)
        [1, 2] 2 (some 2) = ⟨[[1, 2], [1, 2]], 2, 4, []⟩ := by
  decide

theorem dropWhile_dropWhile {α : Type} (p : α → Bool) (l : List α) :
    (l.dropWhile p).dropWhile p = l.dropWhile p := by
  induction l with
  | nil => rfl
  | cons a t ih =>
    by_cases h : p a
    · simp [List.dropWhile_cons, h, ih]
    · simp [List.dropWhile_cons, h]

theorem lstripCL_idem (l : List Char) : lstripCL (lstripCL l) = lstripCL l :=
  dropWhile_dropWhile pyIsSpace l

theorem rstripCL_idem (l : List Char) : rstripCL (rstripCL l) = rstripCL l := by
  unfold rstripCL
  rw [List.reverse_reverse, dropWhile_dropWhile]

theorem rstripCL_cons (a : Char) (t : List Char) :
    rstripCL (a :: t) =
      if rstripCL t = [] then (if pyIsSpace a then [] else [a])
      else a :: rstripCL t := by
  unfold rstripCL
  rw [List.reverse_cons, List.dropWhile_append]
  by_cases h : t.reverse.dropWhile pyIsSpace = []
  · by_cases ha : pyIsSpace a <;>
      simp [h, ha, List.dropWhile_cons]
  · simp [h]

theorem lstripCL_rstripCL_comm (l : List Char) :
    lstripCL (rstripCL l) = rstripCL (lstripCL l) := by
  induction l with
  | nil => rfl
  | cons a t ih =>
    rw [rstripCL_cons]
    by_cases h : pyIsSpace a
    · have hl : lstripCL (a :: t) = lstripCL t := by
        simp [lstripCL, List.dropWhile_cons, h]
      rw [hl, ← ih]
      by_cases ht : rstripCL t = []
      · simp [ht, lstripCL, List.dropWhile_cons, h]
      · simp [ht, lstripCL, List.dropWhile_cons, h]
    · have hl : lstripCL (a :: t) = a :: t := by
        simp [lstripCL, List.dropWhile_cons, h]
      rw [hl, rstripCL_cons]
      by_cases ht : rstripCL t = []
      · simp [ht, lstripCL, List.dropWhile_cons, h]
      · simp [ht, lstripCL, List.dropWhile_cons, h]

theorem pyStripAux_idem (l : List Char) :
    pyStripAux (pyStripAux l) = pyStripAux l := by
  unfold pyStripAux
  rw [lstripCL_rstripCL_comm, lstripCL_idem, rstripCL_idem]

theorem pyStrip_idem (s : String) : pyStrip (pyStrip s) = pyStrip s :=
  congrArg String.mk (pyStripAux_idem s.data)

/-- C8: `strip_strings_and_replace_empty_strings_with_none` is idempotent once
its absent-or-string result state is reached: re-applying it (through `Option`)
to its own result changes nothing — an absent result stays absent, and a
non-absent result is returned unchanged by a second application. -/
theorem c8_normalize_idempotent (s : String) :
    (strip_strings_and_replace_empty_strings_with_none s).bind
        strip_strings_and_replace_empty_strings_with_none =
      strip_strings_and_replace_empty_strings_with_none s := by
  by_cases h : pyStrip s = ""
  · simp [strip_strings_and_replace_empty_strings_with_none, h]
  · simp [strip_strings_and_replace_empty_strings_with_none, h, pyStrip_idem]

/-- C6: `extract_cylinders_int_value_from_cylinders_str` returns absent on an
absent input; on every string of the form `"<digits> cylinders"` it returns the
decimal value of the leading digit run; and on every string with no digit at
position 0 (including the empty string) it returns absent. -/
theorem c6_extract_leading_integer :
    extract_cylinders_int_value_from_cylinders_str none = none ∧
    (∀ (s : String) (ds : List Char), s.data = ds ++ (" cylinders").data →
      ds ≠ [] → (∀ c ∈ ds, c.isDigit = true) →
      extract_cylinders_int_value_from_cylinders_str (some s) =
        some (digitRunToNat ds)) ∧
    (∀ s : String, s.data.head?.all (fun c => !c.isDigit) = true →
      extract_cylinders_int_value_from_cylinders_str (some s) = none) := by
  refine ⟨rfl, ?_, ?_⟩
  · intro s ds hs hne hdig
    simp only [extract_cylinders_int_value_from_cylinders_str, hs]
    rw [List.takeWhile_append_of_pos hdig]
    have h2 : (" cylinders" : String).data.takeWhile Char.isDigit = [] := by decide
    rw [h2, List.append_nil]
    simp [hne]
  · intro s hhead
    simp only [extract_cylinders_int_value_from_cylinders_str]
    cases hd : s.data with
    | nil => simp
    | cons c cs =>
      rw [hd] at hhead
      simp only [List.head?_cons, Option.all_some, Bool.not_eq_true'] at hhead
      simp [List.takeWhile_cons, hhead]

/-- C6 witness: concrete instances — `"6 cylinders"` yields 6, `"abc"` and the
absent input yield absent. -/
theorem c6_extract_leading_integer_witness :
    extract_cylinders_int_value_from_cylinders_str (some "6 cylinders") = some 6 ∧
    extract_cylinders_int_value_from_cylinders_str (some "abc") = none ∧
    extract_cylinders_int_value_from_cylinders_str none = none := by
  refine ⟨?_, ?_, c6_extract_leading_integer.1⟩
  · have h := c6_extract_leading_integer.2.1 "6 cylinders" ['6'] (by decide)
      (by decide) (by decide)
    have e : digitRunToNat ['6'] = 6 := by decide
    rw [e] at h
    exact h
  · exact c6_extract_leading_integer.2.2 "abc" (by decide)

theorem zip_map_fst_eq_take {α β : Type} (l : List α) (c : List β) :
    (l.zip c).map Prod.fst = l.take c.length := by
  induction l generalizing c with
  | nil => simp
  | cons x xs ih =>
    cases c with
    | nil => simp
    | cons y ys => simp [ih]

theorem zip_take_right {α β : Type} (l : List α) (c : List β) :
    l.zip c = l.zip (c.take l.length) := by
  induction l generalizing c with
  | nil => simp
  | cons x xs ih =>
    cases c with
    | nil => simp
    | cons y ys => simp [ih (c := ys)]

theorem mem_dictInsert_fst {α : Type} (d : List (String × α)) (k : String) (v : α)
    (q : String × α) (hq : q ∈ dictInsert d k v) :
    q.fst ∈ d.map Prod.fst ∨ q.fst = k := by
  unfold dictInsert at hq
  by_cases hany : d.any (fun p => p.fst == k)
  · rw [if_pos hany] at hq
    obtain ⟨p, hp, rfl⟩ := List.mem_map.mp hq
    left
    have he : (if p.fst == k then (p.fst, v) else p).fst = p.fst := by
      split <;> rfl
    rw [he]
    exact List.mem_map_of_mem Prod.fst hp
  · rw [if_neg hany] at hq
    rcases List.mem_append.mp hq with h1 | h1
    · exact Or.inl (List.mem_map_of_mem Prod.fst h1)
    · right
      rw [List.mem_singleton.mp h1]

theorem lookup_foldl_dictInsert_eq_none {α : Type} (k : String) :
    ∀ (pairs d : List (String × α)),
      k ∉ pairs.map Prod.fst → d.lookup k = none →
      (pairs.foldl (fun d p => dictInsert d p.fst p.snd) d).lookup k = none := by
  intro pairs
  induction pairs with
  | nil => intro d _ hd; exact hd
  | cons p rest ih =>
    intro d hk hd
    simp only [List.foldl_cons]
    apply ih
    · intro hmem
      exact hk (by simp [hmem])
    · rw [List.lookup_eq_none_iff]
      intro q hq
      rcases mem_dictInsert_fst d p.fst p.snd q hq with h1 | h1
      · obtain ⟨r, hr, hrq⟩ := List.mem_map.mp h1
        have hkr := (List.lookup_eq_none_iff.mp hd) r hr
        rw [← hrq]
        exact hkr
      · rw [h1]
        exact bne_iff_ne.mpr (fun e => hk (by simp [e]))

theorem lookup_dictOfPairs_eq_none {α : Type} (k : String)
    (pairs : List (String × α)) (h : k ∉ pairs.map Prod.fst) :
    (dictOfPairs pairs).lookup k = none :=
  lookup_foldl_dictInsert_eq_none k pairs [] h rfl

theorem foldl_dictInsert_eq_append {α : Type} :
    ∀ (pairs d : List (String × α)),
      ((d ++ pairs).map Prod.fst).Nodup →
      pairs.foldl (fun d p => dictInsert d p.fst p.snd) d = d ++ pairs := by
  intro pairs
  induction pairs with
  | nil => intro d _; simp
  | cons p rest ih =>
    intro d hnd
    have hpd : p.fst ∉ d.map Prod.fst := by
      intro hmem
      rw [List.map_append] at hnd
      exact (List.nodup_append.mp hnd).2.2 hmem (by simp)
    have hany : ¬ (d.any (fun q => q.fst == p.fst) = true) := by
      rw [List.any_eq_true]
      rintro ⟨x, hx, hbeq⟩
      exact hpd (List.mem_map.mpr ⟨x, hx, eq_of_beq hbeq⟩)
    have hins : dictInsert d p.fst p.snd = d ++ [p] := by
      unfold dictInsert
      rw [if_neg hany]
    simp only [List.foldl_cons, hins]
    rw [ih (d ++ [p]) (by simpa using hnd)]
    simp

theorem dictOfPairs_eq_self {α : Type} (pairs : List (String × α))
    (h : (pairs.map Prod.fst).Nodup) : dictOfPairs pairs = pairs :=
  by simpa using foldl_dictInsert_eq_append pairs [] (by simpa using h)

/-- C3 counterexample: for headers `[cylinders, b]` and the single-cell data row
`["6"]` (one cell fewer than the headers), the yielded row is
`{cylinders: 6}` — the trailing header `b` is dropped by the positional zip and
has NO entry in the row at all, rather than an entry holding the absent
marker. -/
theorem c3_counterexample :
    csv_line_to_record_dict ["cylinders", "b"] ["6"] =
      Except.ok [("cylinders", some (Cell.int 6))] ∧
    ("b", (none : Option Cell)) ∉ [("cylinders", some (Cell.int 6))] := by
  decide

/-- C3 (amended): data rows with a mismatched cell count are zipped against the
headers positionally; cells beyond the last header are silently dropped (the
yielded record depends only on the first `|headers|` cells), and each trailing
header with no corresponding cell is omitted from the yielded row entirely —
its key is simply not present (for distinct headers the yielded row's keys are
exactly the first `min(|headers|, |cells|)` headers) — rather than being mapped
to the absent marker. -/
theorem c3_amended (csv_headers : List String) (line : List String) :
    csv_line_to_record_dict csv_headers line =
      csv_line_to_record_dict csv_headers (line.take csv_headers.length) ∧
    (csv_headers.Nodup →
      ∀ d, csv_line_to_record_dict csv_headers line = Except.ok d →
        d.map Prod.fst = csv_headers.take line.length) := by
  constructor
  · have hz : csv_headers.zip
        (line.map strip_strings_and_replace_empty_strings_with_none) =
        csv_headers.zip
          ((line.take csv_headers.length).map
            strip_strings_and_replace_empty_strings_with_none) := by
      rw [List.map_take, ← zip_take_right]
    simp only [csv_line_to_record_dict, hz]
  · intro hnd d hd
    have hkeys : ((csv_headers.zip
        (line.map strip_strings_and_replace_empty_strings_with_none)).map
          Prod.fst) = csv_headers.take line.length := by
      rw [zip_map_fst_eq_take, List.length_map]
    have hnodup : ((csv_headers.zip
        (line.map strip_strings_and_replace_empty_strings_with_none)).map
          Prod.fst).Nodup := by
      rw [hkeys]
      exact (List.take_sublist _ _).nodup hnd
    rw [← hkeys]
    simp only [csv_line_to_record_dict, dictOfPairs_eq_self _ hnodup] at hd
    set pairs := csv_headers.zip
      (line.map strip_strings_and_replace_empty_strings_with_none) with hpairs
    cases hlk : pairs.lookup "cylinders" with
    | none => rw [hlk] at hd; simp at hd
    | some v =>
      rw [hlk] at hd
      simp only [Except.ok.injEq] at hd
      rw [← hd, List.map_map]
      refine List.map_congr_left ?_
      intro p _
      simp only [Function.comp_apply]
      split <;> rfl

/-- C3 witness: for headers `[cylinders, b]`, the row `["6", "7", "8"]` yields
the same record as its two-cell truncation (the extra cell `"8"` is dropped),
and that record's keys are exactly the headers. -/
theorem c3_amended_witness :
    csv_line_to_record_dict ["cylinders", "b"] ["6", "7", "8"] =
      csv_line_to_record_dict ["cylinders", "b"] ["6", "7"] ∧
    ([("cylinders", some (Cell.int 6)), ("b", some (Cell.str "7"))] :
        RecordDict).map Prod.fst = ["cylinders", "b"] := by
  constructor
  · have h := (c3_amended ["cylinders", "b"] ["6", "7", "8"]).1
    simpa using h
  · exact (c3_amended ["cylinders", "b"] ["6", "7", "8"]).2 (by decide)
      [("cylinders", some (Cell.int 6)), ("b", some (Cell.str "7"))] (by decide)

/-- C10: whenever the header row contains no `cylinders` column — or the first
data row is too short for a `cylinders` cell to survive the positional zip —
requesting the first Normalized Row raises `KeyError`: the reader yields no row
at all. -/
theorem c10_missing_cylinders_keyerror (csv_headers : List String)
    (line : List String) (rest : List (List String))
    (h : "cylinders" ∉ csv_headers ∨ "cylinders" ∉ csv_headers.take line.length) :
    create_csv_records_iterator_from_zip_file (csv_headers :: line :: rest) =
      some ([], some PyErr.keyError) := by
  have htake : "cylinders" ∉ csv_headers.take line.length := by
    rcases h with h | h
    · exact fun hmem => h (List.take_subset _ _ hmem)
    · exact h
  have hlk : (dictOfPairs (csv_headers.zip
      (line.map strip_strings_and_replace_empty_strings_with_none))).lookup
        "cylinders" = none := by
    apply lookup_dictOfPairs_eq_none
    rw [zip_map_fst_eq_take, List.length_map]
    exact htake
  have hrow : csv_line_to_record_dict csv_headers line =
      Except.error PyErr.keyError := by
    simp only [csv_line_to_record_dict, hlk]
  simp [create_csv_records_iterator_from_zip_file, recordsFromLines, hrow]

/-- C10 witness: a header row `[a]` with no `cylinders` column — its single
data row `["x"]` triggers `KeyError` and nothing is yielded. -/
theorem c10_missing_cylinders_keyerror_witness :
    create_csv_records_iterator_from_zip_file [["a"], ["x"]] =
      some ([], some PyErr.keyError) :=
  c10_missing_cylinders_keyerror ["a"] ["x"] [] (Or.inl (by decide))

theorem migrateLoop_nil {α β : Type} {validate : α → Option β} {bs : Nat}
    {mr : Option Nat} {count parsed inserted : Nat} {batch : List β}
    {batches : List (List β)} {skipped : List α} (hc : count < bs) :
    migrateLoop validate bs mr [] count parsed inserted batch batches skipped =
      if batch.isEmpty then ⟨batches, parsed, inserted, skipped⟩
      else ⟨batches ++ [batch], parsed, inserted + count, skipped⟩ := by
  rw [migrateLoop, if_pos hc]

theorem migrateLoop_read_invalid {α β : Type} {validate : α → Option β} {bs : Nat}
    {mr : Option Nat} {r : α} {rest : List α} {count parsed inserted : Nat}
    {batch : List β} {batches : List (List β)} {skipped : List α}
    (hc : count < bs) (hv : validate r = none) :
    migrateLoop validate bs mr (r :: rest) count parsed inserted batch batches
        skipped =
      migrateLoop validate bs mr rest count parsed inserted batch batches
        (skipped ++ [r]) := by
  rw [migrateLoop, if_pos hc]
  simp only [hv]

theorem migrateLoop_read_valid {α β : Type} {validate : α → Option β} {bs : Nat}
    {mr : Option Nat} {r : α} {b : β} {rest : List α}
    {count parsed inserted : Nat} {batch : List β} {batches : List (List β)}
    {skipped : List α} (hc : count < bs) (hv : validate r = some b) :
    migrateLoop validate bs mr (r :: rest) count parsed inserted batch batches
        skipped =
      migrateLoop validate bs mr rest (count + 1) (parsed + 1) inserted
        (batch ++ [b]) batches skipped := by
  rw [migrateLoop, if_pos hc]
  simp only [hv]

theorem migrateLoop_flush_break {α β : Type} {validate : α → Option β} {bs : Nat}
    {mr : Option Nat} {l : List α} {count parsed inserted : Nat} {batch : List β}
    {batches : List (List β)} {skipped : List α} (hc : ¬ count < bs)
    (hl : limitReached mr parsed = true) :
    migrateLoop validate bs mr l count parsed inserted batch batches skipped =
      if batch.isEmpty then ⟨batches ++ [batch], parsed, inserted + count, skipped⟩
      else ⟨(batches ++ [batch]) ++ [batch], parsed, inserted + count + count,
        skipped⟩ := by
  cases l with
  | nil =>
    rw [migrateLoop, if_neg hc]
    simp [hl]
  | cons r rest =>
    rw [migrateLoop, if_neg hc]
    simp [hl]

theorem migrateLoop_flush_nil {α β : Type} {validate : α → Option β} {bs : Nat}
    {mr : Option Nat} {count parsed inserted : Nat} {batch : List β}
    {batches : List (List β)} {skipped : List α} (hc : ¬ count < bs)
    (hl : limitReached mr parsed = false) :
    migrateLoop validate bs mr [] count parsed inserted batch batches skipped =
      ⟨batches ++ [batch], parsed, inserted + count, skipped⟩ := by
  rw [migrateLoop, if_neg hc]
  simp [hl]

theorem migrateLoop_flush_invalid {α β : Type} {validate : α → Option β}
    {bs : Nat} {mr : Option Nat} {r : α} {rest : List α}
    {count parsed inserted : Nat} {batch : List β} {batches : List (List β)}
    {skipped : List α} (hc : ¬ count < bs) (hl : limitReached mr parsed = false)
    (hv : validate r = none) :
    migrateLoop validate bs mr (r :: rest) count parsed inserted batch batches
        skipped =
      migrateLoop validate bs mr rest 0 parsed (inserted + count) []
        (batches ++ [batch]) (skipped ++ [r]) := by
  rw [migrateLoop, if_neg hc]
  simp [hl, hv]

theorem migrateLoop_flush_valid {α β : Type} {validate : α → Option β}
    {bs : Nat} {mr : Option Nat} {r : α} {b : β} {rest : List α}
    {count parsed inserted : Nat} {batch : List β} {batches : List (List β)}
    {skipped : List α} (hc : ¬ count < bs) (hl : limitReached mr parsed = false)
    (hv : validate r = some b) :
    migrateLoop validate bs mr (r :: rest) count parsed inserted batch batches
        skipped =
      migrateLoop validate bs mr rest 1 (parsed + 1) (inserted + count) [b]
        (batches ++ [batch]) skipped := by
  rw [migrateLoop, if_neg hc]
  simp [hl, hv]

theorem migrateLoop_flatten_unbounded {α β : Type} (validate : α → Option β)
    (bs : Nat) :
    ∀ (l : List α) (count parsed inserted : Nat) (batch : List β)
      (batches : List (List β)) (skipped : List α),
      (migrateLoop validate bs none l count parsed inserted batch batches
        skipped).batches.flatten =
        batches.flatten ++ batch ++ l.filterMap validate := by
  intro l
  induction l with
  | nil =>
    intro count parsed inserted batch batches skipped
    by_cases hc : count < bs
    · rw [migrateLoop_nil hc]
      by_cases hb : batch.isEmpty
      · have hbe : batch = [] := by simpa using hb
        simp [hb, hbe]
      · simp [hb]
    · have hl : limitReached (none : Option Nat) parsed = false := rfl
      rw [migrateLoop_flush_nil hc hl]
      simp
  | cons r rest ih =>
    intro count parsed inserted batch batches skipped
    by_cases hc : count < bs
    · cases hv : validate r with
      | none =>
        rw [migrateLoop_read_invalid hc hv, ih]
        simp [List.filterMap_cons, hv]
      | some b =>
        rw [migrateLoop_read_valid hc hv, ih]
        simp [List.filterMap_cons, hv]
    · have hl : limitReached (none : Option Nat) parsed = false := rfl
      cases hv : validate r with
      | none =>
        rw [migrateLoop_flush_invalid hc hl hv, ih]
        simp [List.filterMap_cons, hv]
      | some b =>
        rw [migrateLoop_flush_valid hc hl hv, ih]
        simp [List.filterMap_cons, hv]

/-- C9: with `max_rows_to_parse` unset, every record that validates successfully
is passed to the Batch Inserter exactly once: the concatenation of all insert
calls' batches is precisely the list of successfully validated records, in CSV
input order. -/
theorem c9_valid_records_inserted_once_in_order {α β : Type}
    (validate : α → Option β) (records : List α) (batch_size : Nat)
    (hbs : 0 < batch_size) :
    (migrate_craigslist_records_csv_from_zip_to_db validate records batch_size
        none).batches.flatten = records.filterMap validate := by
  have h := migrateLoop_flatten_unbounded validate batch_size records 0 0 0 [] [] []
  simpa [migrate_craigslist_records_csv_from_zip_to_db] using h

/-- C9 witness: records `[1, 2, 3, 4, 5]`, validation keeping the even ones,
batch capacity 2. -/
theorem c9_valid_records_inserted_once_in_order_witness :
    (migrate_craigslist_records_csv_from_zip_to_db
        (fun n : Nat => if n % 2 = 0 then some n else none) [1, 2, 3, 4, 5] 2
        none).batches.flatten =
      [1, 2, 3, 4, 5].filterMap (fun n : Nat => if n % 2 = 0 then some n else none) :=
  c9_valid_records_inserted_once_in_order
    (fun n : Nat => if n % 2 = 0 then some n else none) [1, 2, 3, 4, 5] 2
    (by decide)

theorem migrateLoop_short_input {α β : Type} (validate : α → Option β)
    (bs : Nat) (mr : Option Nat) :
    ∀ (l : List α) (count parsed inserted : Nat) (batch : List β)
      (batches : List (List β)) (skipped : List α),
      count + l.length < bs →
      migrateLoop validate bs mr l count parsed inserted batch batches skipped =
        ⟨if (batch ++ l.filterMap validate).isEmpty then batches
          else batches ++ [batch ++ l.filterMap validate],
         parsed + (l.filterMap validate).length,
         if (batch ++ l.filterMap validate).isEmpty then inserted
          else inserted + (count + (l.filterMap validate).length),
         skipped ++ l.filter (fun r => (validate r).isNone)⟩ := by
  intro l
  induction l with
  | nil =>
    intro count parsed inserted batch batches skipped hlen
    have hc : count < bs := by simpa using hlen
    rw [migrateLoop_nil hc]
    by_cases hb : batch.isEmpty
    · simp [hb]
    · simp [hb]
  | cons r rest ih =>
    intro count parsed inserted batch batches skipped hlen
    simp only [List.length_cons] at hlen
    have hc : count < bs := by omega
    cases hv : validate r with
    | none =>
      have hfm : List.filterMap validate (r :: rest) =
          List.filterMap validate rest := by
        rw [List.filterMap_cons, hv]
      have hff : List.filter (fun x => (validate x).isNone) (r :: rest) =
          r :: List.filter (fun x => (validate x).isNone) rest := by
        rw [List.filter_cons, hv]
        simp
      rw [migrateLoop_read_invalid hc hv,
        ih count parsed inserted batch batches (skipped ++ [r]) (by omega),
        hfm, hff]
      simp
    | some b =>
      have hfm : List.filterMap validate (r :: rest) =
          b :: List.filterMap validate rest := by
        rw [List.filterMap_cons, hv]
      have hff : List.filter (fun x => (validate x).isNone) (r :: rest) =
          List.filter (fun x => (validate x).isNone) rest := by
        rw [List.filter_cons, hv]
        simp
      rw [migrateLoop_read_valid hc hv,
        ih (count + 1) (parsed + 1) inserted (batch ++ [b]) batches skipped
          (by omega),
        hfm, hff]
      have hemp : (batch ++ b :: List.filterMap validate rest).isEmpty = false := by
        cases batch <;> simp
      rw [MigrateResult.mk.injEq]
      refine ⟨?_, ?_, ?_, rfl⟩
      · simp [hemp]
      · simp only [List.length_cons]
        omega
      · simp only [List.append_assoc, List.singleton_append, hemp,
          Bool.false_eq_true, if_false, List.length_cons]
        omega

/-- C1 (amended): with `max_rows_to_parse = 3` and batch capacity 10, the limit
is consulted only after a full-batch flush, so for an all-valid input of fewer
than 10 rows no batch ever fills and the Driver parses EVERY row, performing
exactly one final flush that holds the entire input (and none at all when the
input is empty); it stops after exactly 3 parsed rows only when the input itself
has exactly 3 rows. -/
theorem c1_amended_limit_checked_only_at_flush {α : Type} (records : List α)
    (h : records.length < 10) :
    migrate_craigslist_records_csv_from_zip_to_db (fun x => some x) records 10
        (some 3) =
      ⟨if records.isEmpty then [] else [records], records.length,
        records.length, []⟩ := by
  have hstep := migrateLoop_short_input (fun x : α => some x) 10 (some 3)
    records 0 0 0 [] [] [] (by simpa using h)
  rw [migrate_craigslist_records_csv_from_zip_to_db, hstep]
  by_cases hr : records.isEmpty
  · have hre : records = [] := by simpa using hr
    subst hre
    simp
  · simp [hr]

/-- C1 amended witness: the all-valid 4-row input with capacity 10 and limit 3 is
fully parsed and flushed once. -/
theorem c1_amended_limit_checked_only_at_flush_witness :
    migrate_craigslist_records_csv_from_zip_to_db (fun x : Nat => some x)
        [1, 2, 3, 4] 10 (some 3) = ⟨[[1, 2, 3, 4]], 4, 4, []⟩ := by
  have h := c1_amended_limit_checked_only_at_flush [1, 2, 3, 4] (by decide)
  simpa using h

theorem migrateLoop_nil_skipped {α β : Type} {validate : α → Option β} {bs : Nat}
    {mr : Option Nat} {count parsed inserted : Nat} {batch : List β}
    {batches : List (List β)} {skipped : List α} :
    (migrateLoop validate bs mr [] count parsed inserted batch batches
      skipped).skipped_rows = skipped := by
  by_cases hc : count < bs
  · rw [migrateLoop_nil hc]
    split <;> rfl
  · by_cases hlr : limitReached mr parsed
    · rw [migrateLoop_flush_break hc hlr]
      split <;> rfl
    · rw [migrateLoop_flush_nil hc (by simpa using hlr)]

theorem migrateLoop_nil_parsed {α β : Type} {validate : α → Option β} {bs : Nat}
    {mr : Option Nat} {count parsed inserted : Nat} {batch : List β}
    {batches : List (List β)} {skipped : List α} :
    (migrateLoop validate bs mr [] count parsed inserted batch batches
      skipped).total_rows_parsed = parsed := by
  by_cases hc : count < bs
  · rw [migrateLoop_nil hc]
    split <;> rfl
  · by_cases hlr : limitReached mr parsed
    · rw [migrateLoop_flush_break hc hlr]
      split <;> rfl
    · rw [migrateLoop_flush_nil hc (by simpa using hlr)]

theorem migrateLoop_nil_batches_mem {α β : Type} {validate : α → Option β}
    {bs : Nat} {mr : Option Nat} {count parsed inserted : Nat} {batch : List β}
    {batches : List (List β)} {skipped : List α} :
    ∀ x ∈ (migrateLoop validate bs mr [] count parsed inserted batch batches
      skipped).batches.flatten, x ∈ batches.flatten ∨ x ∈ batch := by
  by_cases hc : count < bs
  · rw [migrateLoop_nil hc]
    intro x hx
    split at hx <;>
      simp only [List.flatten_append, List.flatten_cons, List.flatten_nil,
        List.append_nil, List.mem_append] at hx <;> tauto
  · by_cases hlr : limitReached mr parsed
    · rw [migrateLoop_flush_break hc hlr]
      intro x hx
      split at hx <;>
        simp only [List.flatten_append, List.flatten_cons, List.flatten_nil,
          List.append_nil, List.mem_append] at hx <;> tauto
    · rw [migrateLoop_flush_nil hc (by simpa using hlr)]
      intro x hx
      simp only [List.flatten_append, List.flatten_cons, List.flatten_nil,
        List.append_nil, List.mem_append] at hx
      exact hx

theorem migrateLoop_row_skip {α β : Type} (validate : α → Option β) (bs : Nat)
    (mr : Option Nat) :
    ∀ (l : List α) (count parsed inserted : Nat) (batch : List β)
      (batches : List (List β)) (skipped : List α),
      ∃ pre post, l = pre ++ post ∧
        (mr = none → post = []) ∧
        (migrateLoop validate bs mr l count parsed inserted batch batches
          skipped).skipped_rows =
            skipped ++ pre.filter (fun r => (validate r).isNone) ∧
        (migrateLoop validate bs mr l count parsed inserted batch batches
          skipped).total_rows_parsed =
            parsed + (pre.filterMap validate).length ∧
        (∀ x ∈ (migrateLoop validate bs mr l count parsed inserted batch batches
          skipped).batches.flatten,
            x ∈ batches.flatten ∨ x ∈ batch ∨ x ∈ pre.filterMap validate) := by
  intro l
  induction l with
  | nil =>
    intro count parsed inserted batch batches skipped
    refine ⟨[], [], rfl, fun _ => rfl, ?_, ?_, ?_⟩
    · rw [migrateLoop_nil_skipped]
      simp
    · rw [migrateLoop_nil_parsed]
      simp
    · intro x hx
      rcases migrateLoop_nil_batches_mem x hx with h | h
      · exact Or.inl h
      · exact Or.inr (Or.inl h)
  | cons r rest ih =>
    intro count parsed inserted batch batches skipped
    by_cases hc : count < bs
    · cases hv : validate r with
      | none =>
        rw [migrateLoop_read_invalid hc hv]
        obtain ⟨pre, post, hsplit, hnone, hskip, hparsed, hmem⟩ :=
          ih count parsed inserted batch batches (skipped ++ [r])
        refine ⟨r :: pre, post, by simp [hsplit], hnone, ?_, ?_, ?_⟩
        · rw [hskip, List.filter_cons_of_pos (by simp [hv])]
          simp
        · rw [hparsed, List.filterMap_cons_none hv]
        · intro x hx
          rcases hmem x hx with h | h | h
          · exact Or.inl h
          · exact Or.inr (Or.inl h)
          · refine Or.inr (Or.inr ?_)
            rw [List.filterMap_cons_none hv]
            exact h
      | some b =>
        rw [migrateLoop_read_valid hc hv]
        obtain ⟨pre, post, hsplit, hnone, hskip, hparsed, hmem⟩ :=
          ih (count + 1) (parsed + 1) inserted (batch ++ [b]) batches skipped
        refine ⟨r :: pre, post, by simp [hsplit], hnone, ?_, ?_, ?_⟩
        · rw [hskip, List.filter_cons_of_neg (by simp [hv])]
        · rw [hparsed, List.filterMap_cons_some hv, List.length_cons]
          omega
        · intro x hx
          rcases hmem x hx with h | h | h
          · exact Or.inl h
          · rcases List.mem_append.mp h with h2 | h2
            · exact Or.inr (Or.inl h2)
            · refine Or.inr (Or.inr ?_)
              rw [List.filterMap_cons_some hv]
              rw [List.mem_singleton.mp h2]
              exact List.mem_cons_self b _
          · refine Or.inr (Or.inr ?_)
            rw [List.filterMap_cons_some hv]
            exact List.mem_cons_of_mem _ h
    · by_cases hlr : limitReached mr parsed
      · rw [migrateLoop_flush_break hc hlr]
        refine ⟨[], r :: rest, rfl, fun hmr => ?_, ?_, ?_, ?_⟩
        · subst hmr
          simp [limitReached] at hlr
        · split <;> simp
        · split <;> simp
        · intro x hx
          split at hx <;>
            simp only [List.flatten_append, List.flatten_cons, List.flatten_nil,
              List.append_nil, List.mem_append] at hx <;> tauto
      · cases hv : validate r with
        | none =>
          rw [migrateLoop_flush_invalid hc (by simpa using hlr) hv]
          obtain ⟨pre, post, hsplit, hnone, hskip, hparsed, hmem⟩ :=
            ih 0 parsed (inserted + count) [] (batches ++ [batch])
              (skipped ++ [r])
          refine ⟨r :: pre, post, by simp [hsplit], hnone, ?_, ?_, ?_⟩
          · rw [hskip, List.filter_cons_of_pos (by simp [hv])]
            simp
          · rw [hparsed, List.filterMap_cons_none hv]
          · intro x hx
            rcases hmem x hx with h | h | h
            · have h2 : x ∈ batches.flatten ∨ x ∈ batch := by
                simpa using h
              tauto
            · simp at h
            · refine Or.inr (Or.inr ?_)
              rw [List.filterMap_cons_none hv]
              exact h
        | some b =>
          rw [migrateLoop_flush_valid hc (by simpa using hlr) hv]
          obtain ⟨pre, post, hsplit, hnone, hskip, hparsed, hmem⟩ :=
            ih 1 (parsed + 1) (inserted + count) [b] (batches ++ [batch]) skipped
          refine ⟨r :: pre, post, by simp [hsplit], hnone, ?_, ?_, ?_⟩
          · rw [hskip, List.filter_cons_of_neg (by simp [hv])]
          · rw [hparsed, List.filterMap_cons_some hv, List.length_cons]
            omega
          · intro x hx
            rcases hmem x hx with h | h | h
            · have h2 : x ∈ batches.flatten ∨ x ∈ batch := by
                simpa using h
              tauto
            · refine Or.inr (Or.inr ?_)
              rw [List.filterMap_cons_some hv]
              rw [List.mem_singleton.mp h]
              exact List.mem_cons_self b _
            · refine Or.inr (Or.inr ?_)
              rw [List.filterMap_cons_some hv]
              exact List.mem_cons_of_mem _ h

/-- C5: rows that fail validation are skipped non-fatally.  For any run, the
Driver consumes some prefix of the input (the whole input whenever no max-rows
limit is set, since a validation failure never terminates the run), and within
that consumed prefix: the skipped-row log is exactly the rows on which
validation failed, in order; `total_rows_parsed` counts exactly the rows that
validated successfully; and every record in every inserted batch comes from a
successfully validated row — a failed row appears in no inserted batch. -/
theorem c5_validation_failures_skipped {α β : Type} (validate : α → Option β)
    (records : List α) (batch_size : Nat) (max_rows_to_parse : Option Nat)
    (hbs : 0 < batch_size) :
    ∃ pre post, records = pre ++ post ∧
      (max_rows_to_parse = none → post = []) ∧
      (migrate_craigslist_records_csv_from_zip_to_db validate records batch_size
        max_rows_to_parse).skipped_rows =
          pre.filter (fun r => (validate r).isNone) ∧
      (migrate_craigslist_records_csv_from_zip_to_db validate records batch_size
        max_rows_to_parse).total_rows_parsed =
          (pre.filterMap validate).length ∧
      (∀ x ∈ (migrate_craigslist_records_csv_from_zip_to_db validate records
        batch_size max_rows_to_parse).batches.flatten,
          x ∈ pre.filterMap validate) := by
  obtain ⟨pre, post, hsplit, hnone, hskip, hparsed, hmem⟩ :=
    migrateLoop_row_skip validate batch_size max_rows_to_parse records 0 0 0
      [] [] []
  refine ⟨pre, post, hsplit, hnone, ?_, ?_, ?_⟩
  · rw [migrate_craigslist_records_csv_from_zip_to_db, hskip]
    simp
  · rw [migrate_craigslist_records_csv_from_zip_to_db, hparsed]
    simp
  · intro x hx
    rw [migrate_craigslist_records_csv_from_zip_to_db] at hx
    rcases hmem x hx with h | h | h
    · simp at h
    · simp at h
    · exact h

/-- C5 witness: records `[1, 2, 3]` with validation failing on odd numbers,
batch capacity 2, no row limit. -/
theorem c5_validation_failures_skipped_witness :
    ∃ pre post, [1, 2, 3] = pre ++ post ∧
      ((none : Option Nat) = none → post = []) ∧
      (migrate_craigslist_records_csv_from_zip_to_db
        (fun n : Nat => if n % 2 = 0 then some n else none) [1, 2, 3] 2
        none).skipped_rows =
          pre.filter (fun r => ((fun n : Nat => if n % 2 = 0 then some n
            else none) r).isNone) ∧
      (migrate_craigslist_records_csv_from_zip_to_db
        (fun n : Nat => if n % 2 = 0 then some n else none) [1, 2, 3] 2
        none).total_rows_parsed =
          (pre.filterMap (fun n : Nat => if n % 2 = 0 then some n
            else none)).length ∧
      (∀ x ∈ (migrate_craigslist_records_csv_from_zip_to_db
        (fun n : Nat => if n % 2 = 0 then some n else none) [1, 2, 3] 2
        none).batches.flatten,
          x ∈ pre.filterMap (fun n : Nat => if n % 2 = 0 then some n
            else none)) :=
  c5_validation_failures_skipped
    (fun n : Nat => if n % 2 = 0 then some n else none) [1, 2, 3] 2 none
    (by decide)

end CraigslistMigration
